import Mathlib

/-!
Shallow embedding of the nofx self-migrating encrypted configuration store
(`config/database.go`, the SQLite backend, and its MongoDB twin in the same
package).  Record families are embedded as Lean lists of row structures;
each store operation is a pure function from the relevant record lists (plus
the operation's arguments) to the updated lists, following the source
statement by statement.  Timestamps are carried as explicit `Nat` parameters
where an operation writes them; `float64` fields are only ever stored and
copied by the operations modelled here (never computed with), so they are
carried as an opaque `Int` payload.
-/

namespace Nofx

/-- The credential vault (`crypto.CryptoService`).  Its internals live outside
the embedded package; the store only calls these three methods, so it is
embedded as an abstract record of the three operations, quantified over in the
theorems. -/
structure CryptoService where
  encryptForStorage : String → Except String String
  decryptFromStorage : String → Except String String
  isEncryptedStorageValue : String → Bool

/-- `Database.encryptSensitiveData`: identity when no vault is configured or
the plaintext is empty; on encryption failure the plaintext is returned as the
degraded result. -/
def encryptSensitiveData (cs : Option CryptoService) (plaintext : String) : String :=
  match cs with
  | none => plaintext
  | some c =>
    if plaintext = "" then plaintext
    else
      match c.encryptForStorage plaintext with
      | Except.ok e => e
      | Except.error _ => plaintext

/-- `Database.decryptSensitiveData`: identity when no vault is configured, the
value is empty, or the value is not a recognized encrypted envelope; on
decryption failure the stored value is returned unchanged. -/
def decryptSensitiveData (cs : Option CryptoService) (encrypted : String) : String :=
  match cs with
  | none => encrypted
  | some c =>
    if encrypted = "" then encrypted
    else if c.isEncryptedStorageValue encrypted then
      match c.decryptFromStorage encrypted with
      | Except.ok p => p
      | Except.error _ => encrypted
    else encrypted

/-- A row of the migrated `exchanges` table (integer autoincrement `id`,
business key `exchange_id` + `user_id`). -/
structure ExchangeRow where
  id : Nat
  exchange_id : String
  user_id : String
  display_name : String
  name : String
  typ : String
  enabled : Bool
  api_key : String
  secret_key : String
  testnet : Bool
  hyperliquid_wallet_addr : String
  aster_user : String
  aster_signer : String
  aster_private_key : String
deriving Repr, DecidableEq, Inhabited

/-- WHERE clause of `UpdateExchange` on the migrated schema:
`exchange_id = ? AND user_id = ?`. -/
def exchangeMatches (userID id : String) (r : ExchangeRow) : Bool :=
  r.exchange_id = id && r.user_id = userID

/-- The dynamic SET clause of `UpdateExchange` applied to one matched row:
`enabled`, `testnet`, `hyperliquid_wallet_addr`, `aster_user`, `aster_signer`
are always written; `api_key`, `secret_key`, `aster_private_key` are written
(encrypted) only when the incoming value is non-empty. -/
def applyExchangeUpdate (cs : Option CryptoService) (enabled : Bool)
    (apiKey secretKey : String) (testnet : Bool)
    (hlAddr asterUser asterSigner asterPrivateKey : String)
    (r : ExchangeRow) : ExchangeRow :=
  let r1 := { r with enabled := enabled, testnet := testnet,
                     hyperliquid_wallet_addr := hlAddr, aster_user := asterUser,
                     aster_signer := asterSigner }
  let r2 := if apiKey = "" then r1
            else { r1 with api_key := encryptSensitiveData cs apiKey }
  let r3 := if secretKey = "" then r2
            else { r2 with secret_key := encryptSensitiveData cs secretKey }
  if asterPrivateKey = "" then r3
  else { r3 with aster_private_key := encryptSensitiveData cs asterPrivateKey }

/-- Name/type inference used by `UpdateExchange` when it has to create a row. -/
def defaultExchangeInfo (id : String) : String × String :=
  if id = "binance" then ("Binance Futures", "cex")
  else if id = "hyperliquid" then ("Hyperliquid", "dex")
  else if id = "aster" then ("Aster DEX", "dex")
  else (id ++ " Exchange", "cex")

/-- `Database.UpdateExchange` on the migrated schema: update every row matching
the business key; if zero rows were affected, insert a fresh row (with all
three secret fields encrypted from the incoming values).  `newId` stands for
the autoincrement id the insert would receive. -/
def UpdateExchange (cs : Option CryptoService) (userID id : String)
    (enabled : Bool) (apiKey secretKey : String) (testnet : Bool)
    (hlAddr asterUser asterSigner asterPrivateKey : String)
    (newId : Nat) (rows : List ExchangeRow) : List ExchangeRow :=
  if rows.any (exchangeMatches userID id) then
    rows.map (fun r =>
      if exchangeMatches userID id r then
        applyExchangeUpdate cs enabled apiKey secretKey testnet
          hlAddr asterUser asterSigner asterPrivateKey r
      else r)
  else
    let info := defaultExchangeInfo id
    rows ++ [{ id := newId, exchange_id := id, user_id := userID,
               display_name := "", name := info.1, typ := info.2,
               enabled := enabled,
               api_key := encryptSensitiveData cs apiKey,
               secret_key := encryptSensitiveData cs secretKey,
               testnet := testnet,
               hyperliquid_wallet_addr := hlAddr, aster_user := asterUser,
               aster_signer := asterSigner,
               aster_private_key := encryptSensitiveData cs asterPrivateKey }]

/-- A row of the migrated `ai_models` table. -/
structure AIModelRow where
  id : Nat
  model_id : String
  user_id : String
  display_name : String
  name : String
  provider : String
  enabled : Bool
  api_key : String
  custom_api_url : String
  custom_model_name : String
deriving Repr, DecidableEq, Inhabited

/-- Display-name defaulting used by `UpdateAIModel` when creating a row. -/
def aiModelDefaultName (provider : String) : String :=
  if provider = "deepseek" then "DeepSeek AI"
  else if provider = "qwen" then "Qwen AI"
  else provider ++ " AI"

/-- `Database.UpdateAIModel` on the migrated schema.  Unlike `UpdateExchange`,
the SET clause writes `api_key` unconditionally with the encrypted incoming
value (the encryption is performed once, before the branch).  The three
branches: exact `model_id` match, legacy `provider` match, else insert a fresh
row (`newIntId` stands for the autoincrement id). -/
def UpdateAIModel (cs : Option CryptoService) (userID id : String)
    (enabled : Bool) (apiKey customAPIURL customModelName : String)
    (newIntId : Nat) (rows : List AIModelRow) : List AIModelRow :=
  let encryptedAPIKey := encryptSensitiveData cs apiKey
  match rows.find? (fun r => r.user_id = userID && r.model_id = id) with
  | some r0 =>
    rows.map (fun r =>
      if r.model_id = r0.model_id && r.user_id = userID then
        { r with enabled := enabled, api_key := encryptedAPIKey,
                 custom_api_url := customAPIURL,
                 custom_model_name := customModelName }
      else r)
  | none =>
    match rows.find? (fun r => r.user_id = userID && r.provider = id) with
    | some r1 =>
      rows.map (fun r =>
        if r.model_id = r1.model_id && r.user_id = userID then
          { r with enabled := enabled, api_key := encryptedAPIKey,
                   custom_api_url := customAPIURL,
                   custom_model_name := customModelName }
        else r)
    | none =>
      let provider :=
        if (id.splitOn "_").length ≥ 2 then ((id.splitOn "_").getLastD id)
        else id
      let name := aiModelDefaultName provider
      let newModelID := if id = provider then userID ++ "_" ++ provider else id
      rows ++ [{ id := newIntId, model_id := newModelID, user_id := userID,
                 display_name := "", name := name, provider := provider,
                 enabled := enabled, api_key := encryptedAPIKey,
                 custom_api_url := customAPIURL,
                 custom_model_name := customModelName }]

/-- A row of the `beta_codes` table.  `used_at` is a nullable timestamp,
carried as an abstract tick. -/
structure BetaCodeRow where
  code : String
  used : Bool
  used_by : String
  used_at : Option Nat
deriving Repr, DecidableEq, Inhabited

/-- `Database.UseBetaCode`: the atomic conditional update
`UPDATE beta_codes SET used = 1, used_by = ?, used_at = now WHERE code = ? AND used = 0`,
followed by the rows-affected check.  Returns the error signal together with
the resulting table (unchanged when nothing matched). -/
def UseBetaCode (code userEmail : String) (now : Nat)
    (rows : List BetaCodeRow) : Except String Unit × List BetaCodeRow :=
  let updated := rows.map (fun r =>
    if r.code = code && r.used = false then
      { r with used := true, used_by := userEmail, used_at := some now }
    else r)
  let rowsAffected := rows.countP (fun r => r.code = code && r.used = false)
  if rowsAffected = 0 then (Except.error "beta code invalid or already used", updated)
  else (Except.ok (), updated)

/-- Store state touched by `initDefaultData` on the migrated schema:
`nextAiId`/`nextExId` model the autoincrement cursors of the two tables. -/
structure SeedState where
  nextAiId : Nat
  nextExId : Nat
  aiModels : List AIModelRow
  exchanges : List ExchangeRow
  systemConfig : List (String × String)
deriving Repr, DecidableEq

/-- The default AI-model catalog of `initDefaultData`:
(model_id, name, provider). -/
def defaultAIModels : List (String × String × String) :=
  [("deepseek", "DeepSeek", "deepseek"), ("qwen", "Qwen", "qwen")]

/-- The default exchange catalog of `initDefaultData`:
(exchange_id, name, type). -/
def defaultExchanges : List (String × String × String) :=
  [("binance", "Binance Futures", "binance"),
   ("hyperliquid", "Hyperliquid", "hyperliquid"),
   ("aster", "Aster DEX", "aster")]

/-- The default `system_config` entries of `initDefaultData`, in source-listing
order (the Go map iteration order is irrelevant: inserts are keyed and
insert-if-absent). -/
def defaultSystemConfigs : List (String × String) :=
  [("beta_mode", "false"),
   ("api_server_port", "8080"),
   ("use_default_coins", "true"),
   ("default_coins", "[\"BTCUSDT\",\"ETHUSDT\",\"SOLUSDT\",\"BNBUSDT\",\"XRPUSDT\",\"DOGEUSDT\",\"ADAUSDT\",\"HYPEUSDT\"]"),
   ("max_daily_loss", "10.0"),
   ("max_drawdown", "20.0"),
   ("stop_trading_minutes", "60"),
   ("btc_eth_leverage", "5"),
   ("altcoin_leverage", "5"),
   ("jwt_secret", ""),
   ("registration_enabled", "true")]

/-- Existence check of the AI-model seeding step:
`WHERE model_id = ? AND user_id = 'default'`. -/
def aiModelSeedKey (m : String × String × String) (r : AIModelRow) : Bool :=
  r.model_id = m.1 && r.user_id = "default"

/-- Existence check of the exchange seeding step:
`WHERE exchange_id = ? AND user_id = 'default'`. -/
def exchangeSeedKey (e : String × String × String) (r : ExchangeRow) : Bool :=
  r.exchange_id = e.1 && r.user_id = "default"

/-- Existence check (`INSERT OR IGNORE`) of the system-config seeding step:
the primary key `key`. -/
def systemConfigSeedKey (kv : String × String) (p : String × String) : Bool :=
  p.1 = kv.1

/-- One default-AI-model step of `initDefaultData`: insert the catalog entry
for the `default` user only if no row with that `model_id` and user exists. -/
def seedAIModel (s : SeedState) (m : String × String × String) : SeedState :=
  if s.aiModels.any (aiModelSeedKey m) then s
  else
    { s with nextAiId := s.nextAiId + 1,
             aiModels := s.aiModels ++
               [{ id := s.nextAiId, model_id := m.1, user_id := "default",
                  display_name := "", name := m.2.1, provider := m.2.2,
                  enabled := false, api_key := "", custom_api_url := "",
                  custom_model_name := "" }] }

/-- One default-exchange step of `initDefaultData`. -/
def seedExchange (s : SeedState) (e : String × String × String) : SeedState :=
  if s.exchanges.any (exchangeSeedKey e) then s
  else
    { s with nextExId := s.nextExId + 1,
             exchanges := s.exchanges ++
               [{ id := s.nextExId, exchange_id := e.1, user_id := "default",
                  display_name := "", name := e.2.1, typ := e.2.2,
                  enabled := false, api_key := "", secret_key := "",
                  testnet := false, hyperliquid_wallet_addr := "",
                  aster_user := "", aster_signer := "",
                  aster_private_key := "" }] }

/-- One `INSERT OR IGNORE INTO system_config` step of `initDefaultData`. -/
def seedSystemConfig (s : SeedState) (kv : String × String) : SeedState :=
  if s.systemConfig.any (systemConfigSeedKey kv) then s
  else { s with systemConfig := s.systemConfig ++ [kv] }

/-- `Database.initDefaultData` on the migrated schema: seed the AI-model
catalog, then the exchange catalog, then the system-config defaults, each
entry insert-if-absent by its business key. -/
def initDefaultData (s : SeedState) : SeedState :=
  defaultSystemConfigs.foldl seedSystemConfig
    (defaultExchanges.foldl seedExchange
      (defaultAIModels.foldl seedAIModel s))

/-- `initDefaultData` iterated n times. -/
def seedTimes : Nat → SeedState → SeedState
  | 0, s => s
  | n + 1, s => seedTimes n (initDefaultData s)

/-- A store with zero prior data. -/
def emptySeedState : SeedState :=
  { nextAiId := 1, nextExId := 1, aiModels := [], exchanges := [], systemConfig := [] }

/-- `Database.getNextSequence` of the MongoDB backend: one atomic
`FindOneAndUpdate` with filter on the family name, `$inc seq 1` and upsert.
A missing counter document behaves as seq 0 (the upsert creates it at 1).
Counters are modelled as a total map from family name to last-issued value. -/
def getNextSequence (name : String) (counters : String → Nat) :
    Nat × (String → Nat) :=
  (counters name + 1, fun k => if k = name then counters name + 1 else counters k)

/-- N successive (equivalently, any serialization of N concurrent atomic)
calls of `getNextSequence` on the same family, collecting the issued values. -/
def nextNSeq : Nat → String → (String → Nat) → List Nat × (String → Nat)
  | 0, _, c => ([], c)
  | n + 1, name, c =>
    let r := getNextSequence name c
    let rest := nextNSeq n name r.2
    (r.1 :: rest.1, rest.2)

/-- Error signal of a SQLite point lookup (`QueryRow(...).Scan`). -/
inductive SQLError
  | noRows
deriving Repr, DecidableEq

/-- `Database.GetSystemConfig` of the SQLite backend: `sql.ErrNoRows` is
returned as-is when the key is absent. -/
def sqliteGetSystemConfig (cfg : List (String × String)) (key : String) :
    Except SQLError String :=
  match cfg.find? (fun p => p.1 = key) with
  | some p => Except.ok p.2
  | none => Except.error SQLError.noRows

/-- `Database.GetSystemConfig` of the MongoDB backend: `mongo.ErrNoDocuments`
is mapped to a successful empty-string result. -/
def mongoGetSystemConfig (cfg : List (String × String)) (key : String) :
    Except SQLError String :=
  match cfg.find? (fun p => p.1 = key) with
  | some p => Except.ok p.2
  | none => Except.ok ""

/-- A row of the migrated `traders` table.  The `float64` columns
(`initial_balance`, fee rates, `limit_price_offset`) are only stored and
copied by the operations below, so they are carried as opaque `Int` payloads. -/
structure TraderRow where
  id : String
  user_id : String
  name : String
  ai_model_id : Nat
  exchange_id : Nat
  initial_balance : Int
  scan_interval_minutes : Nat
  is_running : Bool
  btc_eth_leverage : Nat
  altcoin_leverage : Nat
  trading_symbols : String
  use_coin_pool : Bool
  use_oi_top : Bool
  custom_prompt : String
  override_base_prompt : Bool
  system_prompt_template : String
  is_cross_margin : Bool
  taker_fee_rate : Int
  maker_fee_rate : Int
  order_strategy : String
  limit_price_offset : Int
  limit_timeout_seconds : Nat
  timeframes : String
deriving Repr, DecidableEq, Inhabited

/-- WHERE clause shared by all per-trader mutations:
`id = ? AND user_id = ?`. -/
def traderMatches (userID id : String) (t : TraderRow) : Bool :=
  t.id = id && t.user_id = userID

/-- `Database.UpdateTraderStatus`. -/
def updateTraderStatus (userID id : String) (isRunning : Bool)
    (ts : List TraderRow) : List TraderRow :=
  ts.map (fun t =>
    if traderMatches userID id t then { t with is_running := isRunning } else t)

/-- `Database.UpdateTrader`: writes the listed columns of the record for the
row matching the record's own id and user id. -/
def updateTrader (tr : TraderRow) (ts : List TraderRow) : List TraderRow :=
  ts.map (fun t =>
    if traderMatches tr.user_id tr.id t then
      { t with name := tr.name, ai_model_id := tr.ai_model_id,
               exchange_id := tr.exchange_id,
               scan_interval_minutes := tr.scan_interval_minutes,
               btc_eth_leverage := tr.btc_eth_leverage,
               altcoin_leverage := tr.altcoin_leverage,
               trading_symbols := tr.trading_symbols,
               custom_prompt := tr.custom_prompt,
               override_base_prompt := tr.override_base_prompt,
               system_prompt_template := tr.system_prompt_template,
               is_cross_margin := tr.is_cross_margin,
               taker_fee_rate := tr.taker_fee_rate,
               maker_fee_rate := tr.maker_fee_rate,
               order_strategy := tr.order_strategy,
               limit_price_offset := tr.limit_price_offset,
               limit_timeout_seconds := tr.limit_timeout_seconds,
               timeframes := tr.timeframes }
    else t)

/-- `Database.UpdateTraderCustomPrompt`. -/
def updateTraderCustomPrompt (userID id : String) (customPrompt : String)
    (overrideBase : Bool) (ts : List TraderRow) : List TraderRow :=
  ts.map (fun t =>
    if traderMatches userID id t then
      { t with custom_prompt := customPrompt,
               override_base_prompt := overrideBase }
    else t)

/-- `Database.UpdateTraderInitialBalance`. -/
def updateTraderInitialBalance (userID id : String) (newBalance : Int)
    (ts : List TraderRow) : List TraderRow :=
  ts.map (fun t =>
    if traderMatches userID id t then { t with initial_balance := newBalance }
    else t)

/-- `Database.DeleteTrader`: `DELETE FROM traders WHERE id = ? AND user_id = ?`. -/
def deleteTrader (userID id : String) (ts : List TraderRow) : List TraderRow :=
  ts.filter (fun t => !(traderMatches userID id t))

/-- A row of the pre-migration `ai_models` table (TEXT primary key `id`,
no `model_id` column). -/
structure LegacyAIModel where
  id : String
  user_id : String
  name : String
  provider : String
  enabled : Bool
  api_key : String
  custom_api_url : String
  custom_model_name : String
deriving Repr, DecidableEq

/-- A row of the pre-migration `exchanges` table (TEXT key `id`). -/
structure LegacyExchange where
  id : String
  user_id : String
  name : String
  typ : String
  enabled : Bool
  api_key : String
  secret_key : String
  testnet : Bool
deriving Repr, DecidableEq

/-- A pre-migration trader row: both foreign keys are still TEXT ids. -/
structure LegacyTrader where
  id : String
  user_id : String
  ai_model_id : String
  exchange_id : String
deriving Repr, DecidableEq

/-- The record families touched by `migrateToAutoIncrementID`,
in the pre-migration shape. -/
structure LegacyState where
  aiModels : List LegacyAIModel
  exchanges : List LegacyExchange
  traders : List LegacyTrader
deriving Repr, DecidableEq

/-- A trader row after the re-keying migration: the old TEXT foreign keys are
kept in the renamed `_old` columns and the new INTEGER foreign keys are
nullable (`NULL` when the old key was not found in the old-to-new map). -/
structure MigTrader where
  id : String
  user_id : String
  ai_model_id_old : String
  exchange_id_old : String
  ai_model_id : Option Nat
  exchange_id : Option Nat
deriving Repr, DecidableEq

/-- The record families after `migrateToAutoIncrementID`. -/
structure MigState where
  aiModels : List AIModelRow
  exchanges : List ExchangeRow
  traders : List MigTrader
deriving Repr, DecidableEq

/-- Computable string-prefix test (`strings.HasPrefix`), stated on the
character lists so that concrete instances evaluate. -/
def strHasPre (pre s : String) : Bool := pre.data.isPrefixOf s.data

/-- Computable drop of the first n characters of a string
(`strings.TrimPrefix` once the prefix is known to match). -/
def strDropN (s : String) (n : Nat) : String := String.mk (s.data.drop n)

/-- Old-id parsing of `migrateAIModelsTable`: strip a leading
`userID ++ "_"` to recover the model-type id. -/
def extractModelID (oldID userID : String) : String :=
  if strHasPre (userID ++ "_") oldID then strDropN oldID (userID ++ "_").length
  else oldID

/-- `migrateAIModelsTable` data pass: renumber the models with fresh
autoincrement ids (1, 2, ...) and record the old-id to new-id map. -/
def migrateAIModelsTable (l : LegacyState) :
    List AIModelRow × List (String × Nat) :=
  let numbered := l.aiModels.enum
  (numbered.map (fun p =>
      { id := p.1 + 1, model_id := extractModelID p.2.id p.2.user_id,
        user_id := p.2.user_id, display_name := "", name := p.2.name,
        provider := p.2.provider, enabled := p.2.enabled,
        api_key := p.2.api_key, custom_api_url := p.2.custom_api_url,
        custom_model_name := p.2.custom_model_name }),
   numbered.map (fun p => (p.2.id, p.1 + 1)))

/-- `migrateExchangesTableToAutoIncrement` data pass: renumber the exchanges
and record the (old exchange id, user id) to new-id map. -/
def migrateExchangesTableToAutoIncrement (l : LegacyState) :
    List ExchangeRow × List ((String × String) × Nat) :=
  let numbered := l.exchanges.enum
  (numbered.map (fun p =>
      { id := p.1 + 1, exchange_id := p.2.id, user_id := p.2.user_id,
        display_name := "", name := p.2.name, typ := p.2.typ,
        enabled := p.2.enabled, api_key := p.2.api_key,
        secret_key := p.2.secret_key, testnet := p.2.testnet,
        hyperliquid_wallet_addr := "", aster_user := "", aster_signer := "",
        aster_private_key := "" }),
   numbered.map (fun p => ((p.2.id, p.2.user_id), p.1 + 1)))

/-- The two transform steps of `migrateToAutoIncrementID` on the traders'
foreign keys: look each old key up in the respective map; an unmapped key
leaves the new INTEGER column NULL. -/
def migrateLegacy (l : LegacyState) : MigState :=
  let ai := migrateAIModelsTable l
  let ex := migrateExchangesTableToAutoIncrement l
  { aiModels := ai.1, exchanges := ex.1,
    traders := l.traders.map (fun t =>
      { id := t.id, user_id := t.user_id,
        ai_model_id_old := t.ai_model_id, exchange_id_old := t.exchange_id,
        ai_model_id := (ai.2.find? (fun p => p.1 = t.ai_model_id)).map (fun p => p.2),
        exchange_id := (ex.2.find? (fun p => p.1 = (t.exchange_id, t.user_id))).map (fun p => p.2) }) }

/-- `Database.validateMigrationIntegrity`: the structural column checks hold
by construction in the migrated shape; then the orphan scan over `traders`
(a NULL or dangling foreign key counts as orphaned, matching the SQL
`NOT EXISTS` on a NULL comparison), then the row-count sanity checks. -/
def validateMigrationIntegrity (m : MigState) : Except String Unit :=
  let orphaned := m.traders.countP (fun t =>
    !(m.aiModels.any (fun a => t.ai_model_id = some a.id)) ||
    !(m.exchanges.any (fun e => t.exchange_id = some e.id)))
  if orphaned > 0 then Except.error "orphaned trader records"
  else if m.aiModels.length = 0 && m.traders.length > 0 then
    Except.error "traders but no ai models"
  else if m.exchanges.length = 0 && m.traders.length > 0 then
    Except.error "traders but no exchanges"
  else Except.ok ()

/-- The store, as seen by the schema-ensure step: either still in the
pre-migration shape (no `model_id` column) or already migrated. -/
inductive StoreState
  | legacy (l : LegacyState)
  | migrated (m : MigState)
deriving Repr, DecidableEq

/-- `Database.migrateToAutoIncrementID`: skip when the `model_id` column is
already present; otherwise run the two table transforms and the integrity
validation, whose failure makes the migration return an error. -/
def migrateToAutoIncrementID : StoreState → Except String StoreState
  | StoreState.migrated m => Except.ok (StoreState.migrated m)
  | StoreState.legacy l =>
    let m := migrateLegacy l
    match validateMigrationIntegrity m with
    | Except.error e => Except.error ("migration validation failed: " ++ e)
    | Except.ok _ => Except.ok (StoreState.migrated m)

/-- `Database.createTables`, restricted to its migration tail: the return
value of `migrateToAutoIncrementID` is assigned to `err`, but a non-nil `err`
is only logged (`⚠️ 迁移自增ID失败`) and `createTables` then returns nil, so
the caller (`NewDatabase`) proceeds to open the store.  On the swallowed-error
path the embedding keeps the pre-call state; only the success/failure signal
matters to the claims. -/
def createTables (s : StoreState) : Except String StoreState :=
  match migrateToAutoIncrementID s with
  | Except.ok s1 => Except.ok s1
  | Except.error _ => Except.ok s

/-- A concrete vault used to witness the decryption passthrough theorem. -/
def testVault : CryptoService :=
  { encryptForStorage := fun s => Except.ok ("ENCv1:" ++ s),
    decryptFromStorage := fun _ => Except.error "corrupt ciphertext",
    isEncryptedStorageValue := fun s => strHasPre "ENCv1:" s }

/-- A concrete pre-existing AI-model row used to exercise `UpdateAIModel`. -/
def c3Row : AIModelRow :=
  { id := 1, model_id := "deepseek", user_id := "u1", display_name := "",
    name := "DeepSeek", provider := "deepseek", enabled := true,
    api_key := "OLDKEY", custom_api_url := "", custom_model_name := "" }

/-- A concrete pre-existing exchange row used to exercise `UpdateExchange`. -/
def c2Row : ExchangeRow :=
  { id := 1, exchange_id := "binance", user_id := "u1", display_name := "",
    name := "Binance Futures", typ := "cex", enabled := false,
    api_key := "OLDAPI", secret_key := "OLDSEC", testnet := false,
    hyperliquid_wallet_addr := "", aster_user := "", aster_signer := "",
    aster_private_key := "OLDPK" }

/-- A concrete pre-migration store holding one trader whose AI-model foreign
key (`"ghost"`) references no AI-model row. -/
def c1LegacyState : LegacyState :=
  { aiModels := [{ id := "deepseek", user_id := "default", name := "DeepSeek",
                   provider := "deepseek", enabled := false, api_key := "",
                   custom_api_url := "", custom_model_name := "" }],
    exchanges := [{ id := "binance", user_id := "default",
                    name := "Binance Futures", typ := "binance",
                    enabled := false, api_key := "", secret_key := "",
                    testnet := false }],
    traders := [{ id := "t1", user_id := "default", ai_model_id := "ghost",
                  exchange_id := "binance" }] }

/-- A concrete trader row owned by user `alice`. -/
def aliceTrader : TraderRow :=
  { id := "t1", user_id := "alice", name := "A",
    ai_model_id := 1, exchange_id := 1, initial_balance := 50,
    scan_interval_minutes := 3, is_running := false,
    btc_eth_leverage := 5, altcoin_leverage := 5, trading_symbols := "",
    use_coin_pool := false, use_oi_top := false, custom_prompt := "",
    override_base_prompt := false, system_prompt_template := "default",
    is_cross_margin := true, taker_fee_rate := 4, maker_fee_rate := 2,
    order_strategy := "conservative_hybrid", limit_price_offset := -3,
    limit_timeout_seconds := 60, timeframes := "4h" }

/-- A concrete trader row owned by user `bob`, whose id `t2` user `alice`
will try to mutate. -/
def bobTrader : TraderRow :=
  { aliceTrader with id := "t2", user_id := "bob", name := "B",
                     initial_balance := 100 }

/-- The update record user `alice` submits for trader id `t2`
(owned by `bob`). -/
def aliceRecord : TraderRow :=
  { aliceTrader with id := "t2", name := "Hijack" }

/-- A two-tenant trader table. -/
def twoTraders : List TraderRow := [aliceTrader, bobTrader]

/-! Helper lemmas. -/

/-- A map whose function fixes every element of the list is the identity. -/
theorem map_fixes_eq_self {α : Type} (f : α → α) (l : List α)
    (h : ∀ x ∈ l, f x = x) : l.map f = l := by
  induction l with
  | nil => rfl
  | cons a t ih =>
    simp only [List.map_cons, List.cons.injEq]
    exact ⟨h a (List.mem_cons_self a t), ih fun x hx => h x (List.mem_cons_of_mem a hx)⟩

/-- `List.any` is preserved by appending on the right. -/
theorem any_append_right {α : Type} (l t : List α) (p : α → Bool)
    (h : l.any p = true) : (l ++ t).any p = true := by
  simp only [List.any_append, Bool.or_eq_true]
  exact Or.inl h

/-! C7: read-path decryption. -/

/-- C7: read-path decryption is a non-failing passthrough.  With no vault
configured `decryptSensitiveData` is the identity; a stored value that the
vault does not recognize as an encrypted envelope is returned unchanged; and
when decryption of a recognized envelope fails, the original stored value is
returned unchanged (no error is raised — the function is total into
`String`). -/
theorem decrypt_passthrough :
    (∀ s : String, decryptSensitiveData none s = s) ∧
    (∀ (c : CryptoService) (s : String),
      c.isEncryptedStorageValue s = false →
      decryptSensitiveData (some c) s = s) ∧
    (∀ (c : CryptoService) (s e : String),
      c.isEncryptedStorageValue s = true →
      c.decryptFromStorage s = Except.error e →
      decryptSensitiveData (some c) s = s) := by
  refine ⟨fun s => rfl, ?_, ?_⟩
  · intro c s h
    unfold decryptSensitiveData
    by_cases hs : s = ""
    · simp [hs]
    · simp [hs, h]
  · intro c s e h hfail
    unfold decryptSensitiveData
    by_cases hs : s = ""
    · simp [hs]
    · simp [hs, h, hfail]

/-- Witness for C7 at concrete inputs: no vault, an unrecognized legacy value,
and a recognized envelope whose decryption fails. -/
theorem decrypt_passthrough_witness :
    decryptSensitiveData none "plain-secret" = "plain-secret" ∧
    decryptSensitiveData (some testVault) "legacy-plaintext" = "legacy-plaintext" ∧
    decryptSensitiveData (some testVault) "ENCv1:deadbeef" = "ENCv1:deadbeef" :=
  ⟨decrypt_passthrough.1 "plain-secret",
   decrypt_passthrough.2.1 testVault "legacy-plaintext" (by decide),
   decrypt_passthrough.2.2 testVault "ENCv1:deadbeef" "corrupt ciphertext"
     (by decide) rfl⟩

/-! C9: GetSystemConfig on an absent key. -/

/-- C9 counterexample: in the MongoDB backend, looking up a key absent from
`system_config` returns a successful empty-string result, not a not-found
error — refuting the claim that both backend implementations surface an
explicit "absent" signal. -/
theorem getSystemConfig_absent_counterexample :
    mongoGetSystemConfig [] "beta_mode" = Except.ok "" :=
  rfl

/-- C9 amended: for a key absent from `system_config`, the SQLite backend's
`GetSystemConfig` returns the explicit `sql.ErrNoRows` not-found error, while
the MongoDB backend maps `mongo.ErrNoDocuments` to a successful empty-string
result. -/
theorem getSystemConfig_absent (cfg : List (String × String)) (key : String)
    (h : cfg.find? (fun p => p.1 = key) = none) :
    sqliteGetSystemConfig cfg key = Except.error SQLError.noRows ∧
    mongoGetSystemConfig cfg key = Except.ok "" := by
  constructor
  · unfold sqliteGetSystemConfig
    rw [h]
  · unfold mongoGetSystemConfig
    rw [h]

/-- Witness for the amended C9 at a concrete store and key. -/
theorem getSystemConfig_absent_witness :
    sqliteGetSystemConfig [("api_server_port", "8080")] "beta_mode" =
      Except.error SQLError.noRows ∧
    mongoGetSystemConfig [("api_server_port", "8080")] "beta_mode" =
      Except.ok "" :=
  getSystemConfig_absent [("api_server_port", "8080")] "beta_mode" (by decide)

/-! C4: claiming an already-used beta code. -/

/-- C4: when every row carrying the given code is already marked used (the
code is the primary key, so there is at most one), `UseBetaCode` reports the
explicit "invalid or already used" error — never silent success — and leaves
the whole `beta_codes` table, in particular the original claimant's `used`,
`used_by` and `used_at` fields, unchanged. -/
theorem useBetaCode_already_used (code userEmail : String) (now : Nat)
    (rows : List BetaCodeRow)
    (h : ∀ r ∈ rows, r.code = code → r.used = true) :
    (UseBetaCode code userEmail now rows).1 =
      Except.error "beta code invalid or already used" ∧
    (UseBetaCode code userEmail now rows).2 = rows := by
  have hzero : rows.countP (fun r => r.code = code && r.used = false) = 0 := by
    rw [List.countP_eq_zero]
    intro r hr
    simp only [Bool.and_eq_true, decide_eq_true_eq, Bool.not_eq_true, not_and]
    intro hc
    simp [h r hr hc]
  have hmap : rows.map (fun r =>
      if r.code = code && r.used = false then
        { r with used := true, used_by := userEmail, used_at := some now }
      else r) = rows := by
    apply map_fixes_eq_self
    intro r hr
    by_cases hc : r.code = code
    · have hu := h r hr hc
      simp [hc, hu]
    · simp [hc]
  unfold UseBetaCode
  simp only [hzero, hmap, if_pos rfl]
  exact ⟨rfl, rfl⟩

/-- Witness for C4: a concrete table whose single `ABC123` row is already
used by the original claimant. -/
theorem useBetaCode_already_used_witness :
    (UseBetaCode "ABC123" "b@c.com" 9
      [{ code := "ABC123", used := true, used_by := "a@b.com", used_at := some 5 }]).1 =
      Except.error "beta code invalid or already used" ∧
    (UseBetaCode "ABC123" "b@c.com" 9
      [{ code := "ABC123", used := true, used_by := "a@b.com", used_at := some 5 }]).2 =
      [{ code := "ABC123", used := true, used_by := "a@b.com", used_at := some 5 }] :=
  useBetaCode_already_used "ABC123" "b@c.com" 9
    [{ code := "ABC123", used := true, used_by := "a@b.com", used_at := some 5 }]
    (by intro r hr hc; simp only [List.mem_singleton] at hr; rw [hr])

/-! C2: selective secret update of UpdateExchange. -/

/-- C2: for every pre-existing `ExchangeConfig` row matched by
`UpdateExchange`'s business key, an empty `apiKey` argument leaves the stored
(encrypted) `api_key` field unchanged, while a non-empty `secretKey` argument
is encrypted and written; an empty `secretKey` argument never clears the
stored secret.  The updated row (the matched row with the dynamic SET clause
applied) is in the resulting table. -/
theorem updateExchange_selective_secret (cs : Option CryptoService)
    (userID id : String) (enabled : Bool) (apiKey secretKey : String)
    (testnet : Bool) (hlAddr asterUser asterSigner asterPrivateKey : String)
    (newId : Nat) (rows : List ExchangeRow) (r : ExchangeRow)
    (hr : r ∈ rows) (hm : exchangeMatches userID id r = true)
    (hapi : apiKey = "") :
    applyExchangeUpdate cs enabled apiKey secretKey testnet hlAddr asterUser
        asterSigner asterPrivateKey r ∈
      UpdateExchange cs userID id enabled apiKey secretKey testnet hlAddr
        asterUser asterSigner asterPrivateKey newId rows ∧
    (applyExchangeUpdate cs enabled apiKey secretKey testnet hlAddr asterUser
        asterSigner asterPrivateKey r).api_key = r.api_key ∧
    (secretKey ≠ "" →
      (applyExchangeUpdate cs enabled apiKey secretKey testnet hlAddr
          asterUser asterSigner asterPrivateKey r).secret_key =
        encryptSensitiveData cs secretKey) ∧
    (secretKey = "" →
      (applyExchangeUpdate cs enabled apiKey secretKey testnet hlAddr
          asterUser asterSigner asterPrivateKey r).secret_key =
        r.secret_key) := by
  have hany : rows.any (exchangeMatches userID id) = true :=
    List.any_eq_true.mpr ⟨r, hr, hm⟩
  refine ⟨?_, ?_, ?_, ?_⟩
  · unfold UpdateExchange
    rw [if_pos hany]
    exact List.mem_map.mpr ⟨r, hr, by rw [if_pos hm]⟩
  · unfold applyExchangeUpdate
    subst hapi
    by_cases hs : secretKey = "" <;> by_cases hp : asterPrivateKey = "" <;>
      simp [hs, hp]
  · intro hs
    unfold applyExchangeUpdate
    subst hapi
    by_cases hp : asterPrivateKey = "" <;> simp [hs, hp]
  · intro hs
    unfold applyExchangeUpdate
    subst hapi
    by_cases hp : asterPrivateKey = "" <;> simp [hs, hp]

/-- Witness for C2: updating the pre-existing `binance` row of user `u1` with
an empty API key and the secret `NEWSECRET` (no vault configured) keeps
`OLDAPI` and writes the new secret. -/
theorem updateExchange_selective_secret_witness :
    applyExchangeUpdate none true "" "NEWSECRET" false "" "" "" "" c2Row ∈
      UpdateExchange none "u1" "binance" true "" "NEWSECRET" false "" "" "" ""
        2 [c2Row] ∧
    (applyExchangeUpdate none true "" "NEWSECRET" false "" "" "" "" c2Row).api_key =
      c2Row.api_key ∧
    ("NEWSECRET" ≠ "" →
      (applyExchangeUpdate none true "" "NEWSECRET" false "" "" "" "" c2Row).secret_key =
        encryptSensitiveData none "NEWSECRET") ∧
    ("NEWSECRET" = "" →
      (applyExchangeUpdate none true "" "NEWSECRET" false "" "" "" "" c2Row).secret_key =
        c2Row.secret_key) :=
  updateExchange_selective_secret none "u1" "binance" true "" "NEWSECRET"
    false "" "" "" "" 2 [c2Row] c2Row (List.mem_singleton.mpr rfl) (by decide)
    rfl

/-! C3: UpdateAIModel and the empty API key. -/

/-- C3 counterexample: `UpdateAIModel` on a pre-existing row (user `u1`,
model `deepseek`, stored key `OLDKEY`) with an empty `apiKey` argument
overwrites the stored API key with the empty string instead of leaving it
unchanged — refuting the claim that an empty API-key input is treated as
"leave unchanged" for AI-model configs. -/
theorem updateAIModel_clears_key_counterexample :
    (UpdateAIModel none "u1" "deepseek" true "" "" "" 2 [c3Row]).map
        (fun r => r.api_key) = [""] ∧
    c3Row.api_key = "OLDKEY" :=
  ⟨rfl, rfl⟩

/-- C3 amended: when a row exactly matching the business key exists,
`UpdateAIModel` unconditionally writes `api_key` with the encrypted incoming
value — it never preserves the stored key, so an empty `apiKey` argument
clears it (the selective-secret rule is implemented only by
`UpdateExchange`). -/
theorem updateAIModel_always_writes_key (cs : Option CryptoService)
    (userID id : String) (enabled : Bool)
    (apiKey customAPIURL customModelName : String) (newIntId : Nat)
    (rows : List AIModelRow) (r : AIModelRow)
    (hfind : (rows.find? (fun x => x.user_id = userID && x.model_id = id)).isSome)
    (hr : r ∈ rows) (hm : r.model_id = id) (hu : r.user_id = userID) :
    { r with enabled := enabled,
             api_key := encryptSensitiveData cs apiKey,
             custom_api_url := customAPIURL,
             custom_model_name := customModelName } ∈
      UpdateAIModel cs userID id enabled apiKey customAPIURL customModelName
        newIntId rows := by
  obtain ⟨r0, h0⟩ := Option.isSome_iff_exists.mp hfind
  have hp := List.find?_some h0
  simp only [Bool.and_eq_true, decide_eq_true_eq] at hp
  unfold UpdateAIModel
  rw [h0]
  refine List.mem_map.mpr ⟨r, hr, ?_⟩
  have hcond : (decide (r.model_id = r0.model_id) && decide (r.user_id = userID)) = true := by
    simp [hm, hu, hp.2]
  rw [if_pos hcond]

/-- Witness for the amended C3 at the concrete pre-existing row: the row
rewritten with the (empty) encrypted key is in the updated table. -/
theorem updateAIModel_always_writes_key_witness :
    { c3Row with enabled := true,
                 api_key := encryptSensitiveData none "",
                 custom_api_url := "",
                 custom_model_name := "" } ∈
      UpdateAIModel none "u1" "deepseek" true "" "" "" 2 [c3Row] :=
  updateAIModel_always_writes_key none "u1" "deepseek" true "" "" "" 2
    [c3Row] c3Row (by decide) (List.mem_singleton.mpr rfl) rfl rfl

/-! C1: integrity-validation failure and store construction. -/

/-- C1 counterexample: on a concrete pre-migration store holding one trader
whose AI-model foreign key references no existing row, the post-migration
integrity validation fails and `migrateToAutoIncrementID` returns an error,
yet `createTables` (the schema-ensure step run at store open) returns success
because the migration error is only logged — so the store construction does
not fail, refuting the claim. -/
theorem migration_integrity_not_fatal_counterexample :
    validateMigrationIntegrity (migrateLegacy c1LegacyState) =
      Except.error "orphaned trader records" ∧
    migrateToAutoIncrementID (StoreState.legacy c1LegacyState) =
      Except.error "migration validation failed: orphaned trader records" ∧
    createTables (StoreState.legacy c1LegacyState) =
      Except.ok (StoreState.legacy c1LegacyState) :=
  ⟨rfl, rfl, rfl⟩

/-- C1 amended: when the post-migration integrity validation finds a
violation, `migrateToAutoIncrementID` does return an error, but
`createTables` swallows it (logging a warning) and returns success, so the
store construction proceeds and the store opens. -/
theorem migration_integrity_swallowed (l : LegacyState) (e : String)
    (h : validateMigrationIntegrity (migrateLegacy l) = Except.error e) :
    migrateToAutoIncrementID (StoreState.legacy l) =
      Except.error ("migration validation failed: " ++ e) ∧
    createTables (StoreState.legacy l) =
      Except.ok (StoreState.legacy l) := by
  have h1 : migrateToAutoIncrementID (StoreState.legacy l) =
      Except.error ("migration validation failed: " ++ e) := by
    simp only [migrateToAutoIncrementID, h]
  exact ⟨h1, by unfold createTables; rw [h1]⟩

/-- Witness for the amended C1 at the concrete orphaned store. -/
theorem migration_integrity_swallowed_witness :
    migrateToAutoIncrementID (StoreState.legacy c1LegacyState) =
      Except.error ("migration validation failed: " ++ "orphaned trader records") ∧
    createTables (StoreState.legacy c1LegacyState) =
      Except.ok (StoreState.legacy c1LegacyState) :=
  migration_integrity_swallowed c1LegacyState "orphaned trader records" rfl

/-! C10: tenant isolation of the trader mutations. -/

/-- C10: every trader mutation taking a user id filters on both the trader id
and the owning `user_id`, so a row whose `user_id` differs from the caller's
is left unchanged (position by position) by `UpdateTraderStatus`,
`UpdateTraderCustomPrompt`, `UpdateTraderInitialBalance` and `UpdateTrader`,
and survives `DeleteTrader`; membership in the result of `DeleteTrader` is
unchanged for such rows. -/
theorem trader_ops_tenant_isolation (userID id : String) (isRunning : Bool)
    (customPrompt : String) (overrideBase : Bool) (newBalance : Int)
    (tr : TraderRow) (ts : List TraderRow) (i : Nat) (t : TraderRow)
    (hi : ts.get? i = some t) :
    (t.user_id ≠ userID →
      (updateTraderStatus userID id isRunning ts).get? i = some t ∧
      (updateTraderCustomPrompt userID id customPrompt overrideBase ts).get? i = some t ∧
      (updateTraderInitialBalance userID id newBalance ts).get? i = some t ∧
      (t ∈ deleteTrader userID id ts ↔ t ∈ ts)) ∧
    (t.user_id ≠ tr.user_id →
      (updateTrader tr ts).get? i = some t) := by
  have hmem : t ∈ ts := List.get?_mem hi
  constructor
  · intro hne
    have hcond : traderMatches userID id t = false := by
      unfold traderMatches
      simp [hne]
    refine ⟨?_, ?_, ?_, ?_⟩
    · unfold updateTraderStatus
      rw [List.get?_map, hi]
      simp [hcond]
    · unfold updateTraderCustomPrompt
      rw [List.get?_map, hi]
      simp [hcond]
    · unfold updateTraderInitialBalance
      rw [List.get?_map, hi]
      simp [hcond]
    · unfold deleteTrader
      constructor
      · intro hmem2
        exact (List.mem_filter.mp hmem2).1
      · intro hmem2
        exact List.mem_filter.mpr ⟨hmem2, by simp [hcond]⟩
  · intro hne
    have hcond : traderMatches tr.user_id tr.id t = false := by
      unfold traderMatches
      simp [hne]
    unfold updateTrader
    rw [List.get?_map, hi]
    simp [hcond]

/-- Witness for C10: in a concrete two-user table, user `alice` mutating
trader id `t2` leaves the trader of user `bob` (position 1) untouched by all
five operations. -/
theorem trader_ops_tenant_isolation_witness :
    ((updateTraderStatus "alice" "t2" true twoTraders).get? 1 = some bobTrader ∧
     (updateTraderCustomPrompt "alice" "t2" "p" true twoTraders).get? 1 = some bobTrader ∧
     (updateTraderInitialBalance "alice" "t2" 7 twoTraders).get? 1 = some bobTrader ∧
     (bobTrader ∈ deleteTrader "alice" "t2" twoTraders ↔ bobTrader ∈ twoTraders)) ∧
    (updateTrader aliceRecord twoTraders).get? 1 = some bobTrader :=
  ⟨(trader_ops_tenant_isolation "alice" "t2" true "p" true 7 aliceRecord
      twoTraders 1 bobTrader rfl).1 (by decide),
   (trader_ops_tenant_isolation "alice" "t2" true "p" true 7 aliceRecord
      twoTraders 1 bobTrader rfl).2 (by decide)⟩

/-! C8: sequence allocation. -/

/-- Values and final counter of n successive allocations. -/
theorem nextNSeq_spec (n : Nat) (name : String) (c : String → Nat) :
    (nextNSeq n name c).1 = (List.range n).map (fun i => c name + i + 1) ∧
    (nextNSeq n name c).2 name = c name + n := by
  induction n generalizing c with
  | zero => exact ⟨rfl, rfl⟩
  | succ n ih =>
    have hc : (getNextSequence name c).2 name = c name + 1 := by
      unfold getNextSequence
      simp
    obtain ⟨ih1, ih2⟩ := ih (getNextSequence name c).2
    constructor
    · show (getNextSequence name c).1 ::
          (nextNSeq n name (getNextSequence name c).2).1 = _
      simp only [ih1, hc, List.range_succ_eq_map, List.map_cons, List.map_map]
      congr 1
      apply List.map_congr_left
      intro i _
      simp only [Function.comp_apply]
      omega
    · show (nextNSeq n name (getNextSequence name c).2).2 name = c name + (n + 1)
      rw [ih2, hc]
      omega

/-- C8: each `getNextSequence` call is a single atomic find-and-increment
(`FindOneAndUpdate` with an upserting `$inc`), embedded as one state
transition, so N concurrent callers execute as some serialization of N such
transitions.  The N values issued for a family are exactly the contiguous
increasing run starting right after the family's prior high-water mark; they
are strictly increasing across successive calls, pairwise distinct, and the
counter ends at the prior mark plus N. -/
theorem getNextSequence_contiguous (name : String) (c : String → Nat) (n : Nat) :
    (nextNSeq n name c).1 = (List.range n).map (fun i => c name + i + 1) ∧
    List.Pairwise (fun a b => a < b) (nextNSeq n name c).1 ∧
    (nextNSeq n name c).1.Nodup ∧
    (nextNSeq n name c).2 name = c name + n := by
  obtain ⟨h1, h2⟩ := nextNSeq_spec n name c
  have hpair : List.Pairwise (fun a b => a < b) (nextNSeq n name c).1 := by
    rw [h1]
    refine List.pairwise_map.mpr ?_
    exact (List.pairwise_lt_range n).imp (fun h => by omega)
  refine ⟨h1, hpair, hpair.imp (fun h => Nat.ne_of_lt h), h2⟩

/-! C5/C6: default-data seeding. -/

/-- The AI-model seeding step only ever appends to the `ai_models` family. -/
theorem seedAIModel_models_append (s : SeedState) (m : String × String × String) :
    ∃ t, (seedAIModel s m).aiModels = s.aiModels ++ t := by
  unfold seedAIModel
  split
  · exact ⟨[], (List.append_nil _).symm⟩
  · exact ⟨_, rfl⟩

/-- The AI-model seeding fold only ever appends to the `ai_models` family. -/
theorem foldAI_models_append (ms : List (String × String × String)) (s : SeedState) :
    ∃ t, (ms.foldl seedAIModel s).aiModels = s.aiModels ++ t := by
  induction ms generalizing s with
  | nil => exact ⟨[], (List.append_nil _).symm⟩
  | cons m ms ih =>
    obtain ⟨t1, h1⟩ := seedAIModel_models_append s m
    obtain ⟨t2, h2⟩ := ih (seedAIModel s m)
    exact ⟨t1 ++ t2, by rw [List.foldl_cons, h2, h1, List.append_assoc]⟩

/-- After seeding one catalog entry, a row matching its business key exists. -/
theorem seedAIModel_establishes (s : SeedState) (m : String × String × String) :
    (seedAIModel s m).aiModels.any (aiModelSeedKey m) = true := by
  unfold seedAIModel
  split
  · assumption
  · simp [aiModelSeedKey]

/-- Rows already present keep satisfying any existence check after the fold. -/
theorem foldAI_any_mono (p : AIModelRow → Bool)
    (ms : List (String × String × String)) (s : SeedState)
    (h : s.aiModels.any p = true) :
    (ms.foldl seedAIModel s).aiModels.any p = true := by
  obtain ⟨t, ht⟩ := foldAI_models_append ms s
  rw [ht]
  exact any_append_right _ _ _ h

/-- After the AI-model seeding fold, every seeded catalog entry has a row
matching its business key. -/
theorem foldAI_establishes (ms : List (String × String × String)) (s : SeedState) :
    ∀ m ∈ ms, (ms.foldl seedAIModel s).aiModels.any (aiModelSeedKey m) = true := by
  induction ms generalizing s with
  | nil => intro m hm; cases hm
  | cons m0 ms ih =>
    intro m hm
    rw [List.foldl_cons]
    rcases List.mem_cons.mp hm with h | h
    · subst h
      exact foldAI_any_mono _ ms _ (seedAIModel_establishes s m)
    · exact ih (seedAIModel s m0) m h

/-- The AI-model seeding fold is the identity when every catalog entry is
already present. -/
theorem foldAI_id (ms : List (String × String × String)) (s : SeedState)
    (h : ∀ m ∈ ms, s.aiModels.any (aiModelSeedKey m) = true) :
    ms.foldl seedAIModel s = s := by
  induction ms with
  | nil => rfl
  | cons m0 ms ih =>
    rw [List.foldl_cons]
    have hstep : seedAIModel s m0 = s := by
      unfold seedAIModel
      rw [if_pos (h m0 (List.mem_cons_self m0 ms))]
    rw [hstep]
    exact ih (fun m hm => h m (List.mem_cons_of_mem m0 hm))

/-- The exchange seeding step only ever appends to the `exchanges` family. -/
theorem seedExchange_exchanges_append (s : SeedState) (e : String × String × String) :
    ∃ t, (seedExchange s e).exchanges = s.exchanges ++ t := by
  unfold seedExchange
  split
  · exact ⟨[], (List.append_nil _).symm⟩
  · exact ⟨_, rfl⟩

/-- The exchange seeding fold only ever appends to the `exchanges` family. -/
theorem foldEx_exchanges_append (es : List (String × String × String)) (s : SeedState) :
    ∃ t, (es.foldl seedExchange s).exchanges = s.exchanges ++ t := by
  induction es generalizing s with
  | nil => exact ⟨[], (List.append_nil _).symm⟩
  | cons e es ih =>
    obtain ⟨t1, h1⟩ := seedExchange_exchanges_append s e
    obtain ⟨t2, h2⟩ := ih (seedExchange s e)
    exact ⟨t1 ++ t2, by rw [List.foldl_cons, h2, h1, List.append_assoc]⟩

/-- After seeding one exchange entry, a row matching its business key exists. -/
theorem seedExchange_establishes (s : SeedState) (e : String × String × String) :
    (seedExchange s e).exchanges.any (exchangeSeedKey e) = true := by
  unfold seedExchange
  split
  · assumption
  · simp [exchangeSeedKey]

/-- Rows already present keep satisfying any existence check after the fold. -/
theorem foldEx_any_mono (p : ExchangeRow → Bool)
    (es : List (String × String × String)) (s : SeedState)
    (h : s.exchanges.any p = true) :
    (es.foldl seedExchange s).exchanges.any p = true := by
  obtain ⟨t, ht⟩ := foldEx_exchanges_append es s
  rw [ht]
  exact any_append_right _ _ _ h

/-- After the exchange seeding fold, every seeded entry has a matching row. -/
theorem foldEx_establishes (es : List (String × String × String)) (s : SeedState) :
    ∀ e ∈ es, (es.foldl seedExchange s).exchanges.any (exchangeSeedKey e) = true := by
  induction es generalizing s with
  | nil => intro e he; cases he
  | cons e0 es ih =>
    intro e he
    rw [List.foldl_cons]
    rcases List.mem_cons.mp he with h | h
    · subst h
      exact foldEx_any_mono _ es _ (seedExchange_establishes s e)
    · exact ih (seedExchange s e0) e h

/-- The exchange seeding fold is the identity when every entry is present. -/
theorem foldEx_id (es : List (String × String × String)) (s : SeedState)
    (h : ∀ e ∈ es, s.exchanges.any (exchangeSeedKey e) = true) :
    es.foldl seedExchange s = s := by
  induction es with
  | nil => rfl
  | cons e0 es ih =>
    rw [List.foldl_cons]
    have hstep : seedExchange s e0 = s := by
      unfold seedExchange
      rw [if_pos (h e0 (List.mem_cons_self e0 es))]
    rw [hstep]
    exact ih (fun e he => h e (List.mem_cons_of_mem e0 he))

/-- The system-config seeding step only ever appends. -/
theorem seedSystemConfig_config_append (s : SeedState) (kv : String × String) :
    ∃ t, (seedSystemConfig s kv).systemConfig = s.systemConfig ++ t := by
  unfold seedSystemConfig
  split
  · exact ⟨[], (List.append_nil _).symm⟩
  · exact ⟨_, rfl⟩

/-- The system-config seeding fold only ever appends. -/
theorem foldCfg_config_append (cfgs : List (String × String)) (s : SeedState) :
    ∃ t, (cfgs.foldl seedSystemConfig s).systemConfig = s.systemConfig ++ t := by
  induction cfgs generalizing s with
  | nil => exact ⟨[], (List.append_nil _).symm⟩
  | cons kv cfgs ih =>
    obtain ⟨t1, h1⟩ := seedSystemConfig_config_append s kv
    obtain ⟨t2, h2⟩ := ih (seedSystemConfig s kv)
    exact ⟨t1 ++ t2, by rw [List.foldl_cons, h2, h1, List.append_assoc]⟩

/-- After seeding one config entry, an entry with its key exists. -/
theorem seedSystemConfig_establishes (s : SeedState) (kv : String × String) :
    (seedSystemConfig s kv).systemConfig.any (systemConfigSeedKey kv) = true := by
  unfold seedSystemConfig
  split
  · assumption
  · simp [systemConfigSeedKey]

/-- Entries already present keep satisfying any existence check. -/
theorem foldCfg_any_mono (p : String × String → Bool)
    (cfgs : List (String × String)) (s : SeedState)
    (h : s.systemConfig.any p = true) :
    (cfgs.foldl seedSystemConfig s).systemConfig.any p = true := by
  obtain ⟨t, ht⟩ := foldCfg_config_append cfgs s
  rw [ht]
  exact any_append_right _ _ _ h

/-- After the system-config seeding fold, every seeded key is present. -/
theorem foldCfg_establishes (cfgs : List (String × String)) (s : SeedState) :
    ∀ kv ∈ cfgs,
      (cfgs.foldl seedSystemConfig s).systemConfig.any (systemConfigSeedKey kv) = true := by
  induction cfgs generalizing s with
  | nil => intro kv hkv; cases hkv
  | cons kv0 cfgs ih =>
    intro kv hkv
    rw [List.foldl_cons]
    rcases List.mem_cons.mp hkv with h | h
    · subst h
      exact foldCfg_any_mono _ cfgs _ (seedSystemConfig_establishes s kv)
    · exact ih (seedSystemConfig s kv0) kv h

/-- The system-config seeding fold is the identity when every key is present. -/
theorem foldCfg_id (cfgs : List (String × String)) (s : SeedState)
    (h : ∀ kv ∈ cfgs, s.systemConfig.any (systemConfigSeedKey kv) = true) :
    cfgs.foldl seedSystemConfig s = s := by
  induction cfgs with
  | nil => rfl
  | cons kv0 cfgs ih =>
    rw [List.foldl_cons]
    have hstep : seedSystemConfig s kv0 = s := by
      unfold seedSystemConfig
      rw [if_pos (h kv0 (List.mem_cons_self kv0 cfgs))]
    rw [hstep]
    exact ih (fun kv hkv => h kv (List.mem_cons_of_mem kv0 hkv))

/-- The AI-model seeding step does not touch the other two families. -/
theorem seedAIModel_other (s : SeedState) (m : String × String × String) :
    (seedAIModel s m).exchanges = s.exchanges ∧
    (seedAIModel s m).systemConfig = s.systemConfig := by
  unfold seedAIModel
  split <;> exact ⟨rfl, rfl⟩

/-- The AI-model seeding fold does not touch the other two families. -/
theorem foldAI_other (ms : List (String × String × String)) (s : SeedState) :
    (ms.foldl seedAIModel s).exchanges = s.exchanges ∧
    (ms.foldl seedAIModel s).systemConfig = s.systemConfig := by
  induction ms generalizing s with
  | nil => exact ⟨rfl, rfl⟩
  | cons m ms ih =>
    rw [List.foldl_cons]
    obtain ⟨h1, h2⟩ := seedAIModel_other s m
    obtain ⟨h3, h4⟩ := ih (seedAIModel s m)
    exact ⟨h3.trans h1, h4.trans h2⟩

/-- The exchange seeding step does not touch the other two families. -/
theorem seedExchange_other (s : SeedState) (e : String × String × String) :
    (seedExchange s e).aiModels = s.aiModels ∧
    (seedExchange s e).systemConfig = s.systemConfig := by
  unfold seedExchange
  split <;> exact ⟨rfl, rfl⟩

/-- The exchange seeding fold does not touch the other two families. -/
theorem foldEx_other (es : List (String × String × String)) (s : SeedState) :
    (es.foldl seedExchange s).aiModels = s.aiModels ∧
    (es.foldl seedExchange s).systemConfig = s.systemConfig := by
  induction es generalizing s with
  | nil => exact ⟨rfl, rfl⟩
  | cons e es ih =>
    rw [List.foldl_cons]
    obtain ⟨h1, h2⟩ := seedExchange_other s e
    obtain ⟨h3, h4⟩ := ih (seedExchange s e)
    exact ⟨h3.trans h1, h4.trans h2⟩

/-- The system-config seeding step does not touch the other two families. -/
theorem seedSystemConfig_other (s : SeedState) (kv : String × String) :
    (seedSystemConfig s kv).aiModels = s.aiModels ∧
    (seedSystemConfig s kv).exchanges = s.exchanges := by
  unfold seedSystemConfig
  split <;> exact ⟨rfl, rfl⟩

/-- The system-config seeding fold does not touch the other two families. -/
theorem foldCfg_other (cfgs : List (String × String)) (s : SeedState) :
    (cfgs.foldl seedSystemConfig s).aiModels = s.aiModels ∧
    (cfgs.foldl seedSystemConfig s).exchanges = s.exchanges := by
  induction cfgs generalizing s with
  | nil => exact ⟨rfl, rfl⟩
  | cons kv cfgs ih =>
    rw [List.foldl_cons]
    obtain ⟨h1, h2⟩ := seedSystemConfig_other s kv
    obtain ⟨h3, h4⟩ := ih (seedSystemConfig s kv)
    exact ⟨h3.trans h1, h4.trans h2⟩

/-- `initDefaultData` is idempotent. -/
theorem initDefaultData_idem (s : SeedState) :
    initDefaultData (initDefaultData s) = initDefaultData s := by
  unfold initDefaultData
  set s1 := defaultAIModels.foldl seedAIModel s with hs1
  set s2 := defaultExchanges.foldl seedExchange s1 with hs2
  set s3 := defaultSystemConfigs.foldl seedSystemConfig s2 with hs3
  have hAI : defaultAIModels.foldl seedAIModel s3 = s3 := by
    apply foldAI_id
    intro m hm
    have : s3.aiModels = s1.aiModels := by
      rw [hs3, hs2]
      rw [(foldCfg_other defaultSystemConfigs s2).1, (foldEx_other defaultExchanges s1).1]
    rw [this, hs1]
    exact foldAI_establishes defaultAIModels s m hm
  rw [hAI]
  have hEx : defaultExchanges.foldl seedExchange s3 = s3 := by
    apply foldEx_id
    intro e he
    have : s3.exchanges = s2.exchanges := by
      rw [hs3]
      exact (foldCfg_other defaultSystemConfigs s2).2
    rw [this, hs2]
    exact foldEx_establishes defaultExchanges s1 e he
  rw [hEx]
  apply foldCfg_id
  intro kv hkv
  rw [hs3]
  exact foldCfg_establishes defaultSystemConfigs s2 kv hkv

/-- C5: default-data seeding is idempotent and never overwrites.  For every
starting store state, running `initDefaultData` n+1 times yields exactly the
same state (hence the same row counts and field values) as running it once,
and each of the three seeded families of the result extends the pre-existing
rows verbatim (pre-existing rows, including user-edited default rows, are
never overwritten). -/
theorem initDefaultData_idempotent_frame (s : SeedState) (n : Nat) :
    seedTimes (n + 1) s = initDefaultData s ∧
    (∃ t, (initDefaultData s).aiModels = s.aiModels ++ t) ∧
    (∃ t, (initDefaultData s).exchanges = s.exchanges ++ t) ∧
    (∃ t, (initDefaultData s).systemConfig = s.systemConfig ++ t) := by
  refine ⟨?_, ?_, ?_, ?_⟩
  · induction n generalizing s with
    | zero => rfl
    | succ n ih =>
      show seedTimes (n + 1) (initDefaultData s) = initDefaultData s
      calc seedTimes (n + 1) (initDefaultData s)
          = initDefaultData (initDefaultData s) := ih (initDefaultData s)
        _ = initDefaultData s := initDefaultData_idem s
  · unfold initDefaultData
    obtain ⟨t, ht⟩ := foldAI_models_append defaultAIModels s
    refine ⟨t, ?_⟩
    rw [(foldCfg_other defaultSystemConfigs _).1, (foldEx_other defaultExchanges _).1, ht]
  · unfold initDefaultData
    obtain ⟨t, ht⟩ := foldEx_exchanges_append defaultExchanges
      (defaultAIModels.foldl seedAIModel s)
    refine ⟨t, ?_⟩
    rw [(foldCfg_other defaultSystemConfigs _).2, ht,
      (foldAI_other defaultAIModels s).1]
  · unfold initDefaultData
    obtain ⟨t, ht⟩ := foldCfg_config_append defaultSystemConfigs
      (defaultExchanges.foldl seedExchange (defaultAIModels.foldl seedAIModel s))
    refine ⟨t, ?_⟩
    rw [ht, (foldEx_other defaultExchanges _).2, (foldAI_other defaultAIModels s).2]

/-- C6: on a fresh store with zero prior data, seeding yields exactly two
AI-model rows with model ids `deepseek` and `qwen` and exactly three exchange
rows with exchange ids `binance`, `hyperliquid` and `aster`, all owned by the
`default` user with `enabled = false`, and a `system_config` row
`beta_mode = "false"`. -/
theorem fresh_seed_contents :
    (initDefaultData emptySeedState).aiModels.length = 2 ∧
    (initDefaultData emptySeedState).aiModels.map (fun r => r.model_id) =
      ["deepseek", "qwen"] ∧
    (∀ r ∈ (initDefaultData emptySeedState).aiModels,
      r.user_id = "default" ∧ r.enabled = false) ∧
    (initDefaultData emptySeedState).exchanges.length = 3 ∧
    (initDefaultData emptySeedState).exchanges.map (fun r => r.exchange_id) =
      ["binance", "hyperliquid", "aster"] ∧
    (∀ r ∈ (initDefaultData emptySeedState).exchanges,
      r.user_id = "default" ∧ r.enabled = false) ∧
    (initDefaultData emptySeedState).systemConfig.find?
      (fun p => p.1 = "beta_mode") = some ("beta_mode", "false") := by
  decide

end Nofx
